import Mathlib

/-!
Verification development for the `security` crate of iran-proxy-unified:
a shallow embedding of `src/security/src/tls_fragmentation.rs` and
`src/security/src/dynamic_patterns.rs`.

Modelling conventions:
* Machine integers (`u8`, `u16`, `u32`, `usize`) are embedded as `Nat`;
  wrap-around is made explicit with `% 2 ^ w` where the source can overflow.
* The thread-local random generator is embedded as a draw stream
  `σ : Nat → Nat` together with an index of the next draw; `rng.gen_range(lo..=hi)`
  becomes `genRange σ ix lo hi`, which is `none` exactly when the Rust call
  would panic on an empty range (`lo > hi`).
* A Rust panic is a distinguished outcome (`FragResult.panicked` in the
  fragmenter, `none` at the outer option of the rotator operations), separate
  from the `Result::Err` channel (`FragResult.err`).
* The `while` loop and the degenerate-case self-recursion of
  `fragment_client_hello` are embedded with explicit fuel; exhausting the fuel
  yields `FragResult.diverge`, so genuine non-termination of the source shows up
  as `diverge` for every fuel.
* `Instant` timestamps and `SystemTime` epoch seconds are passed in explicitly
  as `Nat` parameters (`now`, `nowSecs`); the `HashMap` of sessions is embedded
  as a function `String → Option SessionState`.
-/

set_option maxRecDepth 100000

namespace Security

/-- Outcome of running an embedded fallible Rust computation:
a normal `Ok`, a normal `Err`, a Rust panic, or fuel exhaustion
(modelling non-termination). -/
inductive FragResult (α : Type) where
  | ok (a : α)
  | err (msg : String)
  | panicked (msg : String)
  | diverge
  deriving Repr, DecidableEq

/-- `true` exactly on the fuel-exhaustion outcome. -/
def FragResult.isDiverge {α : Type} : FragResult α → Bool
  | .diverge => true
  | _ => false

/-- Embedding of `rng.gen_range(lo..=hi)`: draws the `ix`-th value of the
stream `σ`; `none` models the Rust panic on an empty range. -/
def genRange (σ : Nat → Nat) (ix lo hi : Nat) : Option Nat :=
  if lo ≤ hi then some (lo + σ ix % (hi - lo + 1)) else none

/-! ## TLS fragmentation (`tls_fragmentation.rs`) -/

/-- `TLSFragmentationConfig` from `tls_fragmentation.rs`. -/
structure TLSFragmentationConfig where
  min_fragment_size : Nat
  max_fragment_size : Nat
  min_delay_ms : Nat
  max_delay_ms : Nat
  randomize_delays : Bool
  preserve_record_boundary : Bool
  deriving Repr, DecidableEq

/-- `TLSFragmentationConfig::default()`. -/
def TLSFragmentationConfig.default : TLSFragmentationConfig :=
  { min_fragment_size := 100
    max_fragment_size := 500
    min_delay_ms := 10
    max_delay_ms := 100
    randomize_delays := true
    preserve_record_boundary := true }

/-- `FragmentedPacket`: a byte payload plus its delay in milliseconds. -/
structure FragmentedPacket where
  data : List Nat
  delay_ms : Nat
  deriving Repr, DecidableEq

/-- `TLSFragmenter`: the fragmentation engine, holding only its config. -/
structure TLSFragmenter where
  config : TLSFragmentationConfig
  deriving Repr, DecidableEq

/-- `TLSFragmenter::new()`. -/
def TLSFragmenter.new : TLSFragmenter := ⟨TLSFragmentationConfig.default⟩

/-- `TLSFragmenter::with_config(config)`: stores the configuration unchanged;
the source performs no validation here. -/
def TLSFragmenter.with_config (config : TLSFragmentationConfig) : TLSFragmenter :=
  ⟨config⟩

/-- `TLSFragmenter::is_client_hello(data)`. -/
def is_client_hello (data : List Nat) : Bool :=
  if data.length < 6 then false
  else if data.getD 0 0 ≠ 0x16 then false
  else if data.getD 1 0 ≠ 0x03 ∨ (data.getD 2 0 ≠ 0x03 ∧ data.getD 2 0 ≠ 0x04) then
    false
  else if data.getD 5 0 ≠ 0x01 then false
  else true

/-- The loop of `fragment_client_hello` (lines 116–157) together with the
degenerate-case self-recursion (lines 159–165).  `fuel` bounds the number of
loop iterations plus restarts; `ix` is the index of the next random draw;
`offset` and `acc` are the loop state.  On the restart path the source calls
`fragment_client_hello` again, so the two validation checks are re-run
verbatim before the loop restarts. -/
def fragStep (cfg : TLSFragmentationConfig) (hs : List Nat) (σ : Nat → Nat) :
    Nat → Nat → Nat → List FragmentedPacket → FragResult (List FragmentedPacket)
  | 0, _, offset, acc =>
    if offset < hs.length then .diverge
    else if acc.length = 1 ∧
        cfg.max_fragment_size < (acc.headD ⟨[], 0⟩).data.length then .diverge
    else .ok acc
  | fuel + 1, ix, offset, acc =>
    if offset < hs.length then
      -- one iteration of the `while offset < handshake.len()` loop
      let sizeDraw : Option Nat :=
        if cfg.preserve_record_boundary ∧ offset = 0 then
          genRange σ ix 150 (min 200 hs.length)
        else
          genRange σ ix cfg.min_fragment_size
            (min cfg.max_fragment_size (hs.length - offset))
      match sizeDraw with
      | none => .panicked "cannot sample empty range"
      | some fragment_size =>
        let e := min (offset + fragment_size) hs.length
        let fragment_data := (hs.drop offset).take (e - offset)
        if offset = 0 ∧ cfg.randomize_delays = false then
          fragStep cfg hs σ fuel (ix + 1) e (acc ++ [⟨fragment_data, 0⟩])
        else
          match genRange σ (ix + 1) cfg.min_delay_ms cfg.max_delay_ms with
          | none => .panicked "cannot sample empty range"
          | some delay =>
            fragStep cfg hs σ fuel (ix + 2) e (acc ++ [⟨fragment_data, delay⟩])
    else if acc.length = 1 ∧
        cfg.max_fragment_size < (acc.headD ⟨[], 0⟩).data.length then
      -- `return self.fragment_client_hello(handshake)`
      if ¬ is_client_hello hs then .err "Not a TLS ClientHello packet"
      else if hs.length < 43 then .err "ClientHello too short"
      else fragStep cfg hs σ fuel ix 0 []
    else .ok acc

/-- `TLSFragmenter::fragment_client_hello(handshake)` for the fragmenter with
configuration `cfg`; `σ`/`ix` embed the random generator and `fuel` bounds the
loop/restart steps. -/
def fragment_client_hello (cfg : TLSFragmentationConfig) (hs : List Nat)
    (σ : Nat → Nat) (ix fuel : Nat) : FragResult (List FragmentedPacket) :=
  if ¬ is_client_hello hs then .err "Not a TLS ClientHello packet"
  else if hs.length < 43 then .err "ClientHello too short"
  else fragStep cfg hs σ fuel ix 0 []

/-- `TLSFragmenter::fragment_with_ipd(handshake)`: post-processes the delays of
a successful fragmentation (index 0 forced to 0, a zero delay at a later index
raised to `min_delay_ms`). -/
def fragment_with_ipd (cfg : TLSFragmentationConfig) (hs : List Nat)
    (σ : Nat → Nat) (ix fuel : Nat) : FragResult (List FragmentedPacket) :=
  match fragment_client_hello cfg hs σ ix fuel with
  | .ok packets =>
    .ok ((packets.enum).map fun p =>
      if p.1 = 0 then { p.2 with delay_ms := 0 }
      else if p.2.delay_ms = 0 then { p.2 with delay_ms := cfg.min_delay_ms }
      else p.2)
  | r => r

/-- `reassemble_fragments`: concatenation of payloads in order. -/
def reassemble_fragments (packets : List (List Nat)) : List Nat :=
  packets.flatten

/-- The 85-byte sample ClientHello from the crate's own test
(`create_sample_client_hello`). -/
def sampleClientHello : List Nat :=
  [0x16, 0x03, 0x03, 0x00, 0x50, 0x01] ++ List.replicate 79 0

/-- A 150-byte ClientHello-shaped buffer, long enough for the first-fragment
draw `gen_range(150..=min(200, len))` to be non-empty. -/
def hello150 : List Nat :=
  [0x16, 0x03, 0x03, 0x00, 0x50, 0x01] ++ List.replicate 144 0

/-- A 300-byte ClientHello-shaped buffer. -/
def hello300 : List Nat :=
  [0x16, 0x03, 0x03, 0x00, 0x50, 0x01] ++ List.replicate 294 0

/-- A configuration whose `min_fragment_size` is `0`: the loop can then draw a
zero-length fragment and fail to advance `offset`. -/
def cfgZeroMin : TLSFragmentationConfig :=
  { TLSFragmentationConfig.default with min_fragment_size := 0 }

/-- A configuration whose `min_fragment_size` exceeds its
`max_fragment_size`. -/
def cfgMinGtMax : TLSFragmentationConfig :=
  { TLSFragmentationConfig.default with
      min_fragment_size := 500, max_fragment_size := 100 }

/-- `fragment_client_hello` diverges at these arguments: no amount of fuel
makes it return. -/
def divergesOnAllFuel (cfg : TLSFragmentationConfig) (hs : List Nat)
    (σ : Nat → Nat) (ix : Nat) : Prop :=
  ∀ fuel, fragment_client_hello cfg hs σ ix fuel = .diverge

/-! ## Dynamic pattern rotation (`dynamic_patterns.rs`) -/

/-- `SessionParameters` from `dynamic_patterns.rs`. -/
structure SessionParameters where
  tcp_window_size : Nat
  tcp_mss : Nat
  ttl : Nat
  initial_rtt_ms : Nat
  packet_timing_variance : Nat
  deriving Repr, DecidableEq

/-- `HourlyPattern` from `dynamic_patterns.rs`. -/
structure HourlyPattern where
  pattern_id : String
  hour : Nat
  tcp_flags_preset : Nat
  initial_sequence_offset : Nat
  urg_pointer_enabled : Bool
  deriving Repr, DecidableEq

/-- `SessionState` from `dynamic_patterns.rs`; timestamps are `Nat` readings of
the monotonic clock. -/
structure SessionState where
  session_id : String
  created_at : Nat
  parameters : SessionParameters
  last_rotation : Nat
  rotation_count : Nat
  pattern_profile : String
  deriving Repr, DecidableEq

/-- `PatternRotationConfig` from `dynamic_patterns.rs`. -/
structure PatternRotationConfig where
  rotation_interval_hours : Nat
  enable_hourly_patterns : Bool
  randomize_tcp_window : Bool
  randomize_ttl : Bool
  randomize_packet_timing : Bool
  session_level_variation : Bool
  min_tcp_window : Nat
  max_tcp_window : Nat
  min_ttl : Nat
  max_ttl : Nat
  min_rtt_ms : Nat
  max_rtt_ms : Nat
  deriving Repr, DecidableEq

/-- `PatternRotationConfig::default()`. -/
def PatternRotationConfig.default : PatternRotationConfig :=
  { rotation_interval_hours := 1
    enable_hourly_patterns := true
    randomize_tcp_window := true
    randomize_ttl := true
    randomize_packet_timing := true
    session_level_variation := true
    min_tcp_window := 1024
    max_tcp_window := 65535
    min_ttl := 32
    max_ttl := 128
    min_rtt_ms := 10
    max_rtt_ms := 500 }

/-- Hex digits of `n`, least significant first; the first argument is fuel
(`n` itself is always enough, see `hexVal_hexDigitsRevFuel`). -/
def hexDigitsRevFuel : Nat → Nat → List Nat
  | 0, _ => []
  | _ + 1, 0 => []
  | fuel + 1, n + 1 => (n + 1) % 16 :: hexDigitsRevFuel fuel ((n + 1) / 16)

/-- Hex digits of `n`, least significant first (empty for 0). -/
def hexDigitsRev (n : Nat) : List Nat := hexDigitsRevFuel n n

/-- The character for one hex digit (lower case, as `{:x}` prints). -/
def hexDigitChar (d : Nat) : Char :=
  if d < 10 then Char.ofNat (48 + d) else Char.ofNat (87 + d)

/-- `format!("pattern_{:08x}", hour)`. -/
def patternIdString (hour : Nat) : String :=
  let ds := hexDigitsRev hour
  let padded := ds ++ List.replicate (8 - ds.length) 0
  String.mk ("pattern_".toList ++ (padded.reverse.map hexDigitChar))

/-- Value of a little-endian hex digit list. -/
def hexVal : List Nat → Nat
  | [] => 0
  | d :: ds => d + 16 * hexVal ds

/-- Numeric value of one hex character (left inverse of `hexDigitChar`). -/
def hexDigitVal (c : Char) : Nat :=
  if 87 ≤ c.toNat then c.toNat - 87 else c.toNat - 48

/-- Recovers the hour from `patternIdString hour` (left inverse). -/
def patternIdRecover (s : String) : Nat :=
  hexVal (((s.data.drop 8).map hexDigitVal).reverse)

/-- `PatternRotator::generate_hourly_pattern()`: `nowSecs` is the epoch-seconds
reading of `SystemTime::now()`; the `as u32` cast truncates the hour;
`gen_range(0..=255)`, `gen::<u32>()` and the Bernoulli(0.2) `gen_bool` draw are
taken from consecutive positions of the stream. -/
def generate_hourly_pattern (σ : Nat → Nat) (ix nowSecs : Nat) : HourlyPattern :=
  let hour := (nowSecs / 3600) % 2 ^ 32
  { pattern_id := patternIdString hour
    hour := hour
    tcp_flags_preset := σ ix % 256
    initial_sequence_offset := σ (ix + 1) % 2 ^ 32
    urg_pointer_enabled := σ (ix + 2) % 5 == 0 }

/-- `PatternRotator`: configuration, the session map (`HashMap` embedded as a
function), and the cached hourly pattern. -/
structure PatternRotator where
  config : PatternRotationConfig
  sessions : String → Option SessionState
  last_hourly_pattern : HourlyPattern

/-- `PatternRotator::with_config(config)`: stores the configuration unchanged
(the source performs no validation here), with an empty session map and a
freshly generated hourly pattern. -/
def PatternRotator.with_config (config : PatternRotationConfig)
    (σ : Nat → Nat) (ix nowSecs : Nat) : PatternRotator :=
  { config := config
    sessions := fun _ => none
    last_hourly_pattern := generate_hourly_pattern σ ix nowSecs }

/-- `PatternRotator::new()`. -/
def PatternRotator.new (σ : Nat → Nat) (ix nowSecs : Nat) : PatternRotator :=
  PatternRotator.with_config PatternRotationConfig.default σ ix nowSecs

/-- `PatternRotator::generate_tcp_window()`; `none` is the `gen_range` panic on
an empty range. -/
def generate_tcp_window (cfg : PatternRotationConfig) (σ : Nat → Nat)
    (ix : Nat) : Option Nat :=
  if cfg.randomize_tcp_window then
    genRange σ ix cfg.min_tcp_window cfg.max_tcp_window
  else some 65535

/-- `PatternRotator::generate_ttl()`. -/
def generate_ttl (cfg : PatternRotationConfig) (σ : Nat → Nat)
    (ix : Nat) : Option Nat :=
  if cfg.randomize_ttl then genRange σ ix cfg.min_ttl cfg.max_ttl
  else some 64

/-- `PatternRotator::generate_packet_timing_variance()`. -/
def generate_packet_timing_variance (cfg : PatternRotationConfig)
    (σ : Nat → Nat) (ix : Nat) : Option Nat :=
  if cfg.randomize_packet_timing then genRange σ ix 0 50
  else some 0

/-- `PatternRotator::generate_initial_rtt()`. -/
def generate_initial_rtt (cfg : PatternRotationConfig) (σ : Nat → Nat)
    (ix : Nat) : Option Nat :=
  genRange σ ix cfg.min_rtt_ms cfg.max_rtt_ms

/-- The `mss_options` array of `generate_tcp_mss`. -/
def mss_options : List Nat := [512, 768, 1024, 1256, 1380, 1460, 1480]

/-- `PatternRotator::generate_tcp_mss()`: `choose` picks a uniformly random
element of the non-empty array, `unwrap_or(&1460)` supplies the fallback. -/
def generate_tcp_mss (σ : Nat → Nat) (ix : Nat) : Nat :=
  (mss_options.getD (σ ix % mss_options.length) 1460)

/-- The `SessionParameters` literal built identically at
`dynamic_patterns.rs` lines 175–181 (`get_session_parameters`) and lines
206–212 (`rotate_session_parameters`): one draw per field, in field order. -/
def make_session_parameters (cfg : PatternRotationConfig) (σ : Nat → Nat)
    (ix : Nat) : Option SessionParameters :=
  match generate_tcp_window cfg σ ix, generate_ttl cfg σ (ix + 2),
      generate_initial_rtt cfg σ (ix + 3),
      generate_packet_timing_variance cfg σ (ix + 4) with
  | some w, some t, some r, some v =>
    some { tcp_window_size := w
           tcp_mss := generate_tcp_mss σ (ix + 1)
           ttl := t
           initial_rtt_ms := r
           packet_timing_variance := v }
  | _, _, _, _ => none

/-- `PatternRotator::get_current_hourly_pattern()`: regenerates, replaces the
cached pattern if the hour index changed, and returns (a copy of) the cached
pattern together with the updated rotator. -/
def get_current_hourly_pattern (rot : PatternRotator) (σ : Nat → Nat)
    (ix nowSecs : Nat) : HourlyPattern × PatternRotator :=
  let new_pattern := generate_hourly_pattern σ ix nowSecs
  if new_pattern.hour ≠ rot.last_hourly_pattern.hour then
    (new_pattern, { rot with last_hourly_pattern := new_pattern })
  else
    (rot.last_hourly_pattern, rot)

/-- `PatternRotator::get_session_parameters(session_id)`: the outer `none`
models a panicking empty-range draw; `now` is the `Instant::now()` reading,
`nowSecs` the epoch seconds used by the hourly pattern. -/
def get_session_parameters (rot : PatternRotator) (sid : String)
    (σ : Nat → Nat) (ix now nowSecs : Nat) :
    Option (SessionParameters × PatternRotator) :=
  match rot.sessions sid with
  | some session => some (session.parameters, rot)
  | none =>
    match make_session_parameters rot.config σ ix with
    | none => none
    | some params =>
      let hp := get_current_hourly_pattern rot σ (ix + 5) nowSecs
      let session : SessionState :=
        { session_id := sid
          created_at := now
          parameters := params
          last_rotation := now
          rotation_count := 0
          pattern_profile := hp.1.pattern_id }
      some (params,
        { hp.2 with
            sessions := fun k => if k = sid then some session else hp.2.sessions k })

/-- `PatternRotator::rotate_session_parameters(session_id)`: `some (none, _)`
is the source's `None` ("no such session"); the outer `none` models a
panicking empty-range draw; `rotation_count += 1` wraps as a `u32`. -/
def rotate_session_parameters (rot : PatternRotator) (sid : String)
    (σ : Nat → Nat) (ix now nowSecs : Nat) :
    Option (Option SessionParameters × PatternRotator) :=
  match rot.sessions sid with
  | none => some (none, rot)
  | some session =>
    match make_session_parameters rot.config σ ix with
    | none => none
    | some new_params =>
      let hp := get_current_hourly_pattern rot σ (ix + 5) nowSecs
      let session' : SessionState :=
        { session with
            parameters := new_params
            last_rotation := now
            rotation_count := (session.rotation_count + 1) % 2 ^ 32
            pattern_profile := hp.1.pattern_id }
      some (some new_params,
        { hp.2 with
            sessions := fun k => if k = sid then some session' else hp.2.sessions k })

/-! ### Concrete inputs used by witnesses -/

/-- The all-zeros draw stream. -/
def zeroStream : Nat → Nat := fun _ => 0

/-- A fresh rotator (empty session map) built from the default configuration
at epoch second 0 with the all-zeros stream. -/
def rotEmpty : PatternRotator :=
  PatternRotator.with_config PatternRotationConfig.default zeroStream 0 0

/-- The parameters `make_session_parameters` yields from the default
configuration and the all-zeros stream. -/
def paramsW : SessionParameters :=
  { tcp_window_size := 1024, tcp_mss := 512, ttl := 32
    initial_rtt_ms := 10, packet_timing_variance := 0 }

/-- The session entry created by `get_session_parameters rotEmpty "s"` at
time 0. -/
def sessW : SessionState :=
  { session_id := "s", created_at := 0, parameters := paramsW
    last_rotation := 0, rotation_count := 0
    pattern_profile := patternIdString 0 }

/-- The rotator after that creation. -/
def rotAfterGet : PatternRotator :=
  { rotEmpty with
      sessions := fun k => if k = "s" then some sessW else none }

/-- A pre-existing session entry used by the rotation witness. -/
def sessP : SessionState :=
  { session_id := "s", created_at := 3, parameters := paramsW
    last_rotation := 5, rotation_count := 2, pattern_profile := "x" }

/-- A rotator holding exactly `sessP` under `"s"`. -/
def rotP : PatternRotator :=
  { rotEmpty with
      sessions := fun k => if k = "s" then some sessP else none }

/-- A rotation configuration whose `min_ttl` exceeds its `max_ttl`. -/
def cfgTtlBad : PatternRotationConfig :=
  { PatternRotationConfig.default with min_ttl := 128, max_ttl := 32 }

/-- A well-formed cached hourly pattern for hour 1. -/
def patternHour1 : HourlyPattern :=
  { pattern_id := patternIdString 1, hour := 1, tcp_flags_preset := 7
    initial_sequence_offset := 9, urg_pointer_enabled := false }

/-- A rotator whose cached hourly pattern is for hour 1. -/
def rotHour1 : PatternRotator :=
  { rotEmpty with last_hourly_pattern := patternHour1 }

/-! ## Theorems -/

theorem genRange_mem {σ : Nat → Nat} {ix lo hi v : Nat}
    (h : genRange σ ix lo hi = some v) : lo ≤ v ∧ v ≤ hi := by
  unfold genRange at h
  by_cases hle : lo ≤ hi
  · simp only [hle, if_true, Option.some.injEq] at h
    subst h
    refine ⟨Nat.le_add_right _ _, ?_⟩
    have hm : σ ix % (hi - lo + 1) ≤ hi - lo :=
      Nat.lt_succ_iff.mp (Nat.mod_lt _ (Nat.succ_pos _))
    omega
  · simp [hle] at h

theorem genRange_isSome {σ : Nat → Nat} {ix lo hi : Nat} (h : lo ≤ hi) :
    genRange σ ix lo hi = some (lo + σ ix % (hi - lo + 1)) := by
  simp [genRange, h]

/-- Loop invariant of `fragment_client_hello`: if the accumulated fragments
concatenate to the first `offset` bytes, a successful run concatenates to the
whole buffer. -/
theorem fragStep_ok_concat (cfg : TLSFragmentationConfig) (hs : List Nat)
    (σ : Nat → Nat) :
    ∀ fuel ix offset acc pkts, offset ≤ hs.length →
      (acc.map FragmentedPacket.data).flatten = hs.take offset →
      fragStep cfg hs σ fuel ix offset acc = .ok pkts →
      (pkts.map FragmentedPacket.data).flatten = hs := by
  intro fuel
  induction fuel with
  | zero =>
    intro ix offset acc pkts hoff hacc h
    simp only [fragStep] at h
    split at h
    · simp at h
    · split at h
      · simp at h
      · cases h
        have : offset = hs.length := by omega
        subst this
        simpa [List.take_length] using hacc
  | succ fuel ih =>
    intro ix offset acc pkts hoff hacc h
    simp only [fragStep] at h
    split at h
    case isTrue hlt =>
      -- one more loop iteration
      split at h
      · simp at h
      case h_2 fragment_size hdraw =>
        have hoffe : offset ≤ min (offset + fragment_size) hs.length := by omega
        have hstep : ∀ d,
            ((acc ++ [FragmentedPacket.mk ((hs.drop offset).take
                (min (offset + fragment_size) hs.length - offset)) d]).map
                FragmentedPacket.data).flatten =
              hs.take (min (offset + fragment_size) hs.length) := by
          intro d
          have : hs.take (min (offset + fragment_size) hs.length) =
              hs.take offset ++ (hs.drop offset).take
                (min (offset + fragment_size) hs.length - offset) := by
            have hsplit := List.take_add hs offset
              (min (offset + fragment_size) hs.length - offset)
            rwa [Nat.add_sub_cancel' hoffe] at hsplit
          simp [hacc, this]
        split at h
        · exact ih _ _ _ _ (Nat.min_le_right _ _) (hstep 0) h
        · split at h
          · simp at h
          case h_2 delay hdelay =>
            exact ih _ _ _ _ (Nat.min_le_right _ _) (hstep delay) h
    case isFalse hge =>
      split at h
      · -- degenerate restart
        split at h
        · simp at h
        · split at h
          · simp at h
          · exact ih _ _ _ _ (Nat.zero_le _) (by simp) h
      · cases h
        have : offset = hs.length := by omega
        subst this
        simpa [List.take_length] using hacc

/-- C1: whenever `fragment_client_hello` returns `Ok`, the fragment payloads
concatenate, in transmission order, to exactly the input buffer — every input
byte in exactly one fragment, in order, with no gaps and no duplication. -/
theorem fragment_client_hello_concat (cfg : TLSFragmentationConfig)
    (hs : List Nat) (σ : Nat → Nat) (ix fuel : Nat)
    (pkts : List FragmentedPacket)
    (h : fragment_client_hello cfg hs σ ix fuel = .ok pkts) :
    reassemble_fragments (pkts.map FragmentedPacket.data) = hs := by
  unfold fragment_client_hello at h
  split at h
  · simp at h
  · split at h
    · simp at h
    · exact fragStep_ok_concat cfg hs σ fuel ix 0 [] pkts
        (Nat.zero_le _) (by simp) h

/-- Witness for C1 at a concrete successful run: the 150-byte buffer,
all-zero draw stream, fuel 5. -/
theorem fragment_client_hello_concat_witness :
    reassemble_fragments
      (([⟨hello150, 10⟩] : List FragmentedPacket).map FragmentedPacket.data) =
      hello150 :=
  fragment_client_hello_concat TLSFragmentationConfig.default hello150
    zeroStream 0 5 [⟨hello150, 10⟩] (by rfl)

/-- C2: contrary to the spec scenario (and to the crate's own test
`test_fragment_client_hello`), the default-configured fragmenter does not
succeed on the 85-byte sample ClientHello: for every draw stream it reaches
`gen_range(150..=min(200, 85))`, an empty range, and panics. -/
theorem fragment_sample_client_hello_panics (σ : Nat → Nat) (fuel : Nat) :
    fragment_client_hello TLSFragmentationConfig.default sampleClientHello σ 0
      (fuel + 1) = .panicked "cannot sample empty range" := by
  rfl

/-- `is_client_hello` agrees with the spec's list of validation conditions. -/
theorem is_client_hello_iff (hs : List Nat) :
    is_client_hello hs = true ↔
      (6 ≤ hs.length ∧ hs.getD 0 0 = 0x16 ∧ hs.getD 1 0 = 0x03 ∧
        (hs.getD 2 0 = 0x03 ∨ hs.getD 2 0 = 0x04) ∧ hs.getD 5 0 = 0x01) := by
  unfold is_client_hello
  split_ifs <;> simp_all <;> omega

/-- After successful validation the algorithm never reaches the `Err`
channel: it returns `Ok`, panics, or runs out of fuel. -/
theorem fragStep_ne_err (cfg : TLSFragmentationConfig) (hs : List Nat)
    (σ : Nat → Nat) (hvalid : is_client_hello hs = true)
    (h43 : ¬ hs.length < 43) :
    ∀ fuel ix offset acc msg,
      fragStep cfg hs σ fuel ix offset acc ≠ .err msg := by
  intro fuel
  induction fuel with
  | zero =>
    intro ix offset acc msg h
    simp only [fragStep] at h
    split at h
    · simp at h
    · split at h <;> simp at h
  | succ fuel ih =>
    intro ix offset acc msg h
    simp only [fragStep] at h
    split at h
    · -- loop iteration
      split at h
      · simp at h
      · split at h
        · exact ih _ _ _ _ h
        · split at h
          · simp at h
          · exact ih _ _ _ _ h
    · split at h
      · -- restart branch; the re-validation ifs are resolved by `split`
        exact ih _ _ _ _ h
      · simp at h

/-- C4: `fragment_client_hello` returns on the error channel exactly when the
buffer fails validation (length < 6, wrong record type, wrong major version,
unaccepted minor version, wrong handshake sub-type, or length < 43); in
particular `[0xFF, 0xFF, 0xFF]` fails with the descriptive error. -/
theorem fragment_client_hello_err_iff (cfg : TLSFragmentationConfig)
    (hs : List Nat) (σ : Nat → Nat) (ix fuel : Nat) :
    ((∃ msg, fragment_client_hello cfg hs σ ix fuel = .err msg) ↔
      (hs.length < 6 ∨ hs.getD 0 0 ≠ 0x16 ∨ hs.getD 1 0 ≠ 0x03 ∨
        (hs.getD 2 0 ≠ 0x03 ∧ hs.getD 2 0 ≠ 0x04) ∨ hs.getD 5 0 ≠ 0x01 ∨
        hs.length < 43)) ∧
    fragment_client_hello cfg [0xFF, 0xFF, 0xFF] σ ix fuel =
      .err "Not a TLS ClientHello packet" := by
  constructor
  · constructor
    · rintro ⟨msg, hmsg⟩
      by_contra hcond
      push_neg at hcond
      obtain ⟨h6, h0, h1, h2, h5, h43⟩ := hcond
      have hvalid : is_client_hello hs = true := by
        rw [is_client_hello_iff]
        refine ⟨by omega, h0, h1, ?_, h5⟩
        by_cases hc : hs.getD 2 0 = 0x03
        · exact Or.inl hc
        · exact Or.inr (h2 hc)
      unfold fragment_client_hello at hmsg
      rw [if_neg (by simp [hvalid]), if_neg (by omega)] at hmsg
      exact fragStep_ne_err cfg hs σ hvalid (by omega) _ _ _ _ _ hmsg
    · intro hcond
      unfold fragment_client_hello
      by_cases hvalid : is_client_hello hs = true
      · rw [is_client_hello_iff] at hvalid
        obtain ⟨h6, h0, h1, h2, h5⟩ := hvalid
        have h43 : hs.length < 43 := by
          rcases hcond with h | h | h | h | h | h
          · omega
          · exact absurd h0 h
          · exact absurd h1 h
          · rcases h2 with h2 | h2
            · exact absurd h2 h.1
            · exact absurd h2 h.2
          · exact absurd h5 h
          · exact h
        have hvalid' : is_client_hello hs = true := by
          rw [is_client_hello_iff]
          exact ⟨h6, h0, h1, h2, h5⟩
        rw [if_neg (by simp [hvalid']), if_pos h43]
        exact ⟨_, rfl⟩
      · rw [if_pos hvalid]
        exact ⟨_, rfl⟩
  · rfl

/-- Every delay in a successful fragmentation is either `0` (the unrandomized
first draw) or a value drawn from `[min_delay_ms, max_delay_ms]`. -/
theorem fragStep_ok_delay_mem (cfg : TLSFragmentationConfig) (hs : List Nat)
    (σ : Nat → Nat) :
    ∀ fuel ix offset acc pkts,
      (∀ p ∈ acc, p.delay_ms = 0 ∨ cfg.min_delay_ms ≤ p.delay_ms) →
      fragStep cfg hs σ fuel ix offset acc = .ok pkts →
      ∀ p ∈ pkts, p.delay_ms = 0 ∨ cfg.min_delay_ms ≤ p.delay_ms := by
  intro fuel
  induction fuel with
  | zero =>
    intro ix offset acc pkts hacc h
    simp only [fragStep] at h
    split at h
    · simp at h
    · split at h
      · simp at h
      · cases h; exact hacc
  | succ fuel ih =>
    intro ix offset acc pkts hacc h
    simp only [fragStep] at h
    split at h
    · split at h
      · simp at h
      · split at h
        · refine ih _ _ _ _ ?_ h
          intro p hp
          rcases List.mem_append.mp hp with hp | hp
          · exact hacc p hp
          · simp only [List.mem_singleton] at hp
            subst hp
            exact Or.inl rfl
        · split at h
          · simp at h
          case h_2 delay hdelay =>
            refine ih _ _ _ _ ?_ h
            intro p hp
            rcases List.mem_append.mp hp with hp | hp
            · exact hacc p hp
            · simp only [List.mem_singleton] at hp
              subst hp
              exact Or.inr (genRange_mem hdelay).1
    · split at h
      · split at h
        · simp at h
        · split at h
          · simp at h
          · exact ih _ _ _ _ (by simp) h
      · cases h; exact hacc

/-- C9: on a successful run, `fragment_with_ipd` keeps the payloads of
`fragment_client_hello` unchanged, forces delay 0 at index 0, and guarantees
delay ≥ `min_delay_ms` at every later index. -/
theorem fragment_with_ipd_delays (cfg : TLSFragmentationConfig)
    (hs : List Nat) (σ : Nat → Nat) (ix fuel : Nat)
    (pkts qkts : List FragmentedPacket)
    (hminmax : cfg.min_delay_ms ≤ cfg.max_delay_ms)
    (hbase : fragment_client_hello cfg hs σ ix fuel = .ok pkts)
    (hipd : fragment_with_ipd cfg hs σ ix fuel = .ok qkts) :
    qkts.map FragmentedPacket.data = pkts.map FragmentedPacket.data ∧
    (∀ i : Nat, ∀ hi : i < qkts.length, i = 0 →
      (qkts.get ⟨i, hi⟩).delay_ms = 0) ∧
    (∀ i : Nat, ∀ hi : i < qkts.length, 0 < i →
      cfg.min_delay_ms ≤ (qkts.get ⟨i, hi⟩).delay_ms) := by
  unfold fragment_with_ipd at hipd
  rw [hbase] at hipd
  have hq : qkts = (pkts.enum).map fun p =>
      if p.1 = 0 then { p.2 with delay_ms := 0 }
      else if p.2.delay_ms = 0 then { p.2 with delay_ms := cfg.min_delay_ms }
      else p.2 := by
    cases hipd; rfl
  subst hq
  have hdel := fragStep_ok_delay_mem cfg hs σ fuel ix 0 [] pkts (by simp) (by
    unfold fragment_client_hello at hbase
    split at hbase
    · simp at hbase
    · split at hbase
      · simp at hbase
      · exact hbase)
  refine ⟨?_, ?_, ?_⟩
  · calc ((pkts.enum).map fun p =>
          if p.1 = 0 then { p.2 with delay_ms := 0 }
          else if p.2.delay_ms = 0 then { p.2 with delay_ms := cfg.min_delay_ms }
          else p.2).map FragmentedPacket.data
        = (pkts.enum).map (fun p => FragmentedPacket.data p.2) := by
          rw [List.map_map]
          refine List.map_congr_left ?_
          intro p _
          by_cases h0 : p.1 = 0
          · simp [h0]
          · by_cases hz : p.2.delay_ms = 0 <;> simp [h0, hz]
      _ = (pkts.enum.map Prod.snd).map FragmentedPacket.data := by
          rw [List.map_map]; rfl
      _ = pkts.map FragmentedPacket.data := by rw [List.enum_map_snd]
  · intro i hi h0
    subst h0
    have hlen : 0 < pkts.length := by
      simpa using hi
    rw [List.get_eq_getElem, List.getElem_map, List.getElem_enum]
    simp
  · intro i hi hpos
    have hlen : i < pkts.length := by
      simpa using hi
    rw [List.get_eq_getElem, List.getElem_map, List.getElem_enum]
    have hmem : pkts[i] ∈ pkts := List.getElem_mem hlen
    rcases hdel _ hmem with hz | hge
    · simp [Nat.pos_iff_ne_zero.mp hpos, hz]
    · by_cases hz : pkts[i].delay_ms = 0
      · simp [Nat.pos_iff_ne_zero.mp hpos, hz]
      · simp [Nat.pos_iff_ne_zero.mp hpos, hz, hge]

/-- Witness for C9 at a concrete run: the 150-byte buffer with the all-zeros
stream fragments into one packet; after IPD post-processing its delay is 0. -/
theorem fragment_with_ipd_delays_witness :
    TLSFragmentationConfig.default.min_delay_ms ≤
      TLSFragmentationConfig.default.max_delay_ms ∧
    (([⟨hello150, 0⟩] : List FragmentedPacket).map FragmentedPacket.data =
        ([⟨hello150, 10⟩] : List FragmentedPacket).map FragmentedPacket.data ∧
      (∀ i : Nat, ∀ hi : i < ([⟨hello150, 0⟩] : List FragmentedPacket).length,
        i = 0 →
        (([⟨hello150, 0⟩] : List FragmentedPacket).get ⟨i, hi⟩).delay_ms = 0) ∧
      (∀ i : Nat, ∀ hi : i < ([⟨hello150, 0⟩] : List FragmentedPacket).length,
        0 < i →
        TLSFragmentationConfig.default.min_delay_ms ≤
          (([⟨hello150, 0⟩] : List FragmentedPacket).get ⟨i, hi⟩).delay_ms)) :=
  ⟨by decide,
    fragment_with_ipd_delays TLSFragmentationConfig.default hello150
      zeroStream 0 5 [⟨hello150, 10⟩] [⟨hello150, 0⟩]
      (by decide) (by rfl) (by rfl)⟩

/-- With `min_fragment_size = 0` and the all-zeros stream, the loop draws a
zero-length fragment at offset 150 of the 300-byte buffer forever: the offset
never advances again, whatever the fuel. -/
theorem fragStep_stuck_at_150 :
    ∀ fuel ix acc,
      fragStep cfgZeroMin hello300 zeroStream fuel ix 150 acc = .diverge := by
  intro fuel
  induction fuel with
  | zero => intro ix acc; rfl
  | succ fuel ih =>
    intro ix acc
    exact ih (ix + 2) (acc ++ [⟨[], 10⟩])

/-- C10 counterexample: `fragment_client_hello` does not terminate for every
configuration and stream — with `min_fragment_size = 0` and the all-zeros
stream on a valid 300-byte ClientHello it diverges for every fuel. -/
theorem fragment_client_hello_not_total :
    divergesOnAllFuel cfgZeroMin hello300 zeroStream 0 := by
  intro fuel
  cases fuel with
  | zero => rfl
  | succ fuel => exact fragStep_stuck_at_150 fuel 2 [⟨hello300.take 150, 10⟩]

/-- Under the default configuration the loop always advances: every drawn
fragment size is ≥ 100 ≥ 1 and every fragment payload is ≤ 500 bytes long, so
the degenerate restart is never taken and `hs.length` extra fuel steps
suffice. -/
theorem fragStep_default_no_diverge (hs : List Nat) (σ : Nat → Nat) :
    ∀ fuel ix offset acc,
      (∀ p ∈ acc, p.data.length ≤ 500) →
      hs.length ≤ offset + fuel →
      (fragStep TLSFragmentationConfig.default hs σ fuel ix offset
        acc).isDiverge = false := by
  have hhead : ∀ (acc : List FragmentedPacket), acc.length = 1 →
      (acc.headD ⟨[], 0⟩) ∈ acc := by
    intro acc h1
    cases acc with
    | nil => simp at h1
    | cons a l => simp
  intro fuel
  induction fuel with
  | zero =>
    intro ix offset acc hacc hlen
    simp only [fragStep]
    rw [if_neg (by omega)]
    split
    case isTrue hc =>
      exfalso
      have hmem := hhead acc hc.1
      have := hacc _ hmem
      have h2 := hc.2
      simp only [TLSFragmentationConfig.default] at h2
      omega
    · rfl
  | succ fuel ih =>
    intro ix offset acc hacc hlen
    simp only [fragStep]
    by_cases hoff : offset < hs.length
    · rw [if_pos hoff]
      split
      · rfl
      next v heq =>
        have hv : 1 ≤ v ∧ v ≤ 500 := by
          split at heq
          · have hb := genRange_mem heq
            have hm : min 200 hs.length ≤ 200 := Nat.min_le_left _ _
            omega
          · have hb := genRange_mem heq
            have hm2 := Nat.min_le_left
              (TLSFragmentationConfig.default.max_fragment_size)
              (hs.length - offset)
            simp only [TLSFragmentationConfig.default] at hb hm2 ⊢
            omega
        split
        next hcond =>
          exfalso
          simp [TLSFragmentationConfig.default] at hcond
        next hcond =>
          split
          next hnone =>
            exfalso
            simp [genRange, TLSFragmentationConfig.default] at hnone
          next delay hdelay =>
            refine ih (ix + 2) _ _ ?_ ?_
            · intro p hp
              rcases List.mem_append.mp hp with hp | hp
              · exact hacc p hp
              · simp only [List.mem_singleton] at hp
                subst hp
                simp only [List.length_take, List.length_drop]
                omega
            · omega
    · rw [if_neg hoff]
      split
      next hc =>
        exfalso
        have hmem := hhead acc hc.1
        have := hacc _ hmem
        have h2 := hc.2
        simp only [TLSFragmentationConfig.default] at h2
        omega
      next hc => rfl

/-- C10 amended: under the default configuration `fragment_client_hello`
terminates for every buffer and every stream — with `hs.length + 1` fuel it
returns `Ok`, `Err`, or a panic, never the fuel-exhaustion marker. -/
theorem fragment_client_hello_default_terminates (hs : List Nat)
    (σ : Nat → Nat) (ix : Nat) :
    (fragment_client_hello TLSFragmentationConfig.default hs σ ix
      (hs.length + 1)).isDiverge = false := by
  unfold fragment_client_hello
  split
  · rfl
  · split
    · rfl
    · exact fragStep_default_no_diverge hs σ (hs.length + 1) ix 0 []
        (by simp) (by omega)

/-- C3 counterexample: construction from a min > max configuration does NOT
fail — `with_config` (fragmenter and rotator alike) stores the bad
configuration verbatim, and the violation surfaces only later, as a panicking
empty-range draw inside the algorithm. -/
theorem with_config_accepts_invalid_range :
    (TLSFragmenter.with_config cfgMinGtMax).config = cfgMinGtMax ∧
    (PatternRotator.with_config cfgTtlBad zeroStream 0 0).config = cfgTtlBad ∧
    fragment_client_hello cfgMinGtMax hello300 zeroStream 0 5 =
      .panicked "cannot sample empty range" ∧
    make_session_parameters cfgTtlBad zeroStream 0 = none :=
  ⟨rfl, rfl, by rfl, by rfl⟩

/-- C3 amended: `with_config` performs no range validation at all — for every
configuration (valid or not) it succeeds and stores the configuration
unchanged, with the rotator starting from an empty session map. -/
theorem with_config_stores_config (cfg : TLSFragmentationConfig)
    (rcfg : PatternRotationConfig) (σ : Nat → Nat) (ix nowSecs : Nat) :
    (TLSFragmenter.with_config cfg).config = cfg ∧
    (PatternRotator.with_config rcfg σ ix nowSecs).config = rcfg ∧
    (PatternRotator.with_config rcfg σ ix nowSecs).sessions = (fun _ => none) :=
  ⟨rfl, rfl, rfl⟩

/-! ### Hex formatting of `pattern_id` -/

theorem hexVal_hexDigitsRevFuel :
    ∀ f n, n ≤ f → hexVal (hexDigitsRevFuel f n) = n := by
  intro f
  induction f with
  | zero =>
    intro n h
    interval_cases n
    rfl
  | succ f ih =>
    intro n h
    cases n with
    | zero => rfl
    | succ n =>
      have hdiv : (n + 1) / 16 * 16 ≤ n + 1 := Nat.div_mul_le_self _ _
      have hle : (n + 1) / 16 ≤ f := by omega
      simp only [hexDigitsRevFuel, hexVal, ih _ hle]
      omega

theorem hexDigitsRevFuel_lt :
    ∀ f n d, d ∈ hexDigitsRevFuel f n → d < 16 := by
  intro f
  induction f with
  | zero => intro n d h; simp [hexDigitsRevFuel] at h
  | succ f ih =>
    intro n d h
    cases n with
    | zero => simp [hexDigitsRevFuel] at h
    | succ n =>
      simp only [hexDigitsRevFuel, List.mem_cons] at h
      rcases h with rfl | h
      · exact Nat.mod_lt _ (by norm_num)
      · exact ih _ _ h

theorem hexVal_replicate_zero : ∀ k, hexVal (List.replicate k 0) = 0 := by
  intro k
  induction k with
  | zero => rfl
  | succ k ih => simp [List.replicate, hexVal, ih]

theorem hexVal_append_replicate :
    ∀ ds k, hexVal (ds ++ List.replicate k 0) = hexVal ds := by
  intro ds k
  induction ds with
  | nil => simp [hexVal, hexVal_replicate_zero]
  | cons d ds ih => simp [hexVal, ih]

theorem hexDigitVal_hexDigitChar {d : Nat} (h : d < 16) :
    hexDigitVal (hexDigitChar d) = d := by
  interval_cases d <;> rfl

theorem map_hexDigitVal_map_hexDigitChar (l : List Nat)
    (hb : ∀ d ∈ l, d < 16) :
    (l.map hexDigitChar).map hexDigitVal = l := by
  rw [List.map_map]
  calc l.map (hexDigitVal ∘ hexDigitChar)
      = l.map id :=
        List.map_congr_left fun a ha => hexDigitVal_hexDigitChar (hb a ha)
    _ = l := List.map_id l

/-- `patternIdRecover` is a left inverse of `patternIdString`: the hour can be
read back from the formatted identifier. -/
theorem patternIdRecover_patternIdString (n : Nat) :
    patternIdRecover (patternIdString n) = n := by
  have hb : ∀ d ∈ (hexDigitsRev n ++
      List.replicate (8 - (hexDigitsRev n).length) 0).reverse, d < 16 := by
    intro d hd
    rw [List.mem_reverse] at hd
    rcases List.mem_append.mp hd with hd | hd
    · exact hexDigitsRevFuel_lt _ _ _ hd
    · have := List.eq_of_mem_replicate hd
      omega
  have hdata : (patternIdString n).data =
      "pattern_".toList ++ ((hexDigitsRev n ++
        List.replicate (8 - (hexDigitsRev n).length) 0).reverse.map
          hexDigitChar) := rfl
  have hdrop : ("pattern_".toList ++ ((hexDigitsRev n ++
      List.replicate (8 - (hexDigitsRev n).length) 0).reverse.map
        hexDigitChar)).drop 8 =
      (hexDigitsRev n ++ List.replicate (8 - (hexDigitsRev n).length)
        0).reverse.map hexDigitChar := by
    have h8 : ("pattern_".toList).length = 8 := rfl
    conv_lhs => rw [← h8]
    exact List.drop_left _ _
  unfold patternIdRecover
  rw [hdata, hdrop, map_hexDigitVal_map_hexDigitChar _ hb,
    List.reverse_reverse, hexVal_append_replicate]
  exact hexVal_hexDigitsRevFuel n n le_rfl

/-- Distinct hours format to distinct pattern identifiers. -/
theorem patternIdString_injective {a b : Nat}
    (h : patternIdString a = patternIdString b) : a = b := by
  have := congrArg patternIdRecover h
  rwa [patternIdRecover_patternIdString, patternIdRecover_patternIdString]
    at this

/-! ### Session registry -/

/-- C5: rotation of an unknown identifier returns the "no session" result and
leaves the rotator (in particular the session map) unchanged; a subsequent
`get_session_parameters` on that identifier creates a fresh entry whose
rotation counter starts at 0. -/
theorem rotate_absent_no_create (rot : PatternRotator) (sid : String)
    (σ1 σ2 : Nat → Nat) (ix1 now1 s1 ix2 now2 s2 : Nat)
    (p : SessionParameters) (rot2 : PatternRotator)
    (habsent : rot.sessions sid = none)
    (hget : get_session_parameters rot sid σ2 ix2 now2 s2 = some (p, rot2)) :
    rotate_session_parameters rot sid σ1 ix1 now1 s1 = some (none, rot) ∧
    ∃ e, rot2.sessions sid = some e ∧ e.rotation_count = 0 ∧
      e.session_id = sid ∧ e.created_at = now2 ∧ e.parameters = p := by
  constructor
  · unfold rotate_session_parameters
    rw [habsent]
  · unfold get_session_parameters at hget
    rw [habsent] at hget
    cases hmk : make_session_parameters rot.config σ2 ix2 with
    | none => rw [hmk] at hget; simp at hget
    | some params =>
      rw [hmk] at hget
      simp only [Option.some.injEq, Prod.mk.injEq] at hget
      obtain ⟨hp, hrot⟩ := hget
      subst hp
      subst hrot
      refine ⟨⟨sid, now2, params, now2, 0,
          (get_current_hourly_pattern rot σ2 (ix2 + 5) s2).1.pattern_id⟩,
        ?_, rfl, rfl, rfl, rfl⟩
      simp

/-- Witness for C5 on a fresh rotator and identifier `"s"`. -/
theorem rotate_absent_no_create_witness :
    rotEmpty.sessions "s" = none ∧
    (rotate_session_parameters rotEmpty "s" zeroStream 0 0 0 =
        some (none, rotEmpty) ∧
      ∃ e, rotAfterGet.sessions "s" = some e ∧ e.rotation_count = 0 ∧
        e.session_id = "s" ∧ e.created_at = 0 ∧ e.parameters = paramsW) :=
  ⟨rfl, rotate_absent_no_create rotEmpty "s" zeroStream zeroStream 0 0 0 0 0 0
    paramsW rotAfterGet rfl (by rfl)⟩

theorem generate_tcp_window_some (cfg : PatternRotationConfig)
    (σ : Nat → Nat) (ix : Nat)
    (hw : cfg.min_tcp_window ≤ cfg.max_tcp_window) :
    ∃ v, generate_tcp_window cfg σ ix = some v := by
  unfold generate_tcp_window
  split
  · exact ⟨_, genRange_isSome hw⟩
  · exact ⟨_, rfl⟩

theorem generate_ttl_some (cfg : PatternRotationConfig)
    (σ : Nat → Nat) (ix : Nat) (ht : cfg.min_ttl ≤ cfg.max_ttl) :
    ∃ v, generate_ttl cfg σ ix = some v := by
  unfold generate_ttl
  split
  · exact ⟨_, genRange_isSome ht⟩
  · exact ⟨_, rfl⟩

theorem generate_packet_timing_variance_some (cfg : PatternRotationConfig)
    (σ : Nat → Nat) (ix : Nat) :
    ∃ v, generate_packet_timing_variance cfg σ ix = some v := by
  unfold generate_packet_timing_variance
  split
  · exact ⟨_, genRange_isSome (by norm_num)⟩
  · exact ⟨_, rfl⟩

theorem make_session_parameters_isSome (cfg : PatternRotationConfig)
    (σ : Nat → Nat) (ix : Nat)
    (hw : cfg.min_tcp_window ≤ cfg.max_tcp_window)
    (ht : cfg.min_ttl ≤ cfg.max_ttl)
    (hr : cfg.min_rtt_ms ≤ cfg.max_rtt_ms) :
    ∃ p, make_session_parameters cfg σ ix = some p := by
  obtain ⟨w, hw'⟩ := generate_tcp_window_some cfg σ ix hw
  obtain ⟨t, ht'⟩ := generate_ttl_some cfg σ (ix + 2) ht
  obtain ⟨v, hv'⟩ := generate_packet_timing_variance_some cfg σ (ix + 4)
  obtain ⟨r', hr'⟩ : ∃ u, generate_initial_rtt cfg σ (ix + 3) = some u :=
    ⟨_, genRange_isSome hr⟩
  refine ⟨⟨w, generate_tcp_mss σ (ix + 1), t, r', v⟩, ?_⟩
  unfold make_session_parameters
  rw [hw', ht', hr', hv']

/-- The hourly-pattern cache update touches neither the session map nor the
configuration. -/
theorem get_current_hourly_pattern_frame (rot : PatternRotator)
    (σ : Nat → Nat) (ix s : Nat) :
    ((get_current_hourly_pattern rot σ ix s).2).sessions = rot.sessions ∧
    ((get_current_hourly_pattern rot σ ix s).2).config = rot.config := by
  unfold get_current_hourly_pattern
  dsimp only
  split <;> exact ⟨rfl, rfl⟩

/-- C6: rotation of a known identifier updates exactly that entry — fresh
parameters (returned as a copy), the rotation timestamp set to `now` (≥ the
previous one), the counter incremented by exactly one, and the pattern
identifier re-read from the hourly cache — while the entry's identity fields
and every other map entry are untouched. -/
theorem rotate_present_updates (rot : PatternRotator) (sid : String)
    (σ : Nat → Nat) (ix now nowSecs : Nat) (s : SessionState)
    (hpresent : rot.sessions sid = some s)
    (hts : s.last_rotation ≤ now)
    (hcount : s.rotation_count + 1 < 2 ^ 32)
    (hw : rot.config.min_tcp_window ≤ rot.config.max_tcp_window)
    (ht : rot.config.min_ttl ≤ rot.config.max_ttl)
    (hr : rot.config.min_rtt_ms ≤ rot.config.max_rtt_ms) :
    ∃ p rot2,
      rotate_session_parameters rot sid σ ix now nowSecs =
        some (some p, rot2) ∧
      ∃ s2, rot2.sessions sid = some s2 ∧
        s2.parameters = p ∧
        s2.last_rotation = now ∧ s.last_rotation ≤ s2.last_rotation ∧
        s2.rotation_count = s.rotation_count + 1 ∧
        s2.pattern_profile =
          (get_current_hourly_pattern rot σ (ix + 5) nowSecs).1.pattern_id ∧
        s2.session_id = s.session_id ∧ s2.created_at = s.created_at ∧
        (∀ k, k ≠ sid → rot2.sessions k = rot.sessions k) := by
  obtain ⟨np, hnp⟩ := make_session_parameters_isSome rot.config σ ix hw ht hr
  refine ⟨np,
      { (get_current_hourly_pattern rot σ (ix + 5) nowSecs).2 with
          sessions := fun k =>
            if k = sid then
              some ⟨s.session_id, s.created_at, np, now,
                (s.rotation_count + 1) % 2 ^ 32,
                (get_current_hourly_pattern rot σ (ix + 5)
                  nowSecs).1.pattern_id⟩
            else
              (get_current_hourly_pattern rot σ (ix + 5) nowSecs).2.sessions
                k },
      ?_, ?_⟩
  · unfold rotate_session_parameters
    rw [hpresent, hnp]
  · refine ⟨⟨s.session_id, s.created_at, np, now,
        (s.rotation_count + 1) % 2 ^ 32,
        (get_current_hourly_pattern rot σ (ix + 5) nowSecs).1.pattern_id⟩,
      by simp, rfl, rfl, hts, ?_, rfl, rfl, rfl, ?_⟩
    · exact Nat.mod_eq_of_lt hcount
    · intro k hk
      have hframe := (get_current_hourly_pattern_frame rot σ (ix + 5) nowSecs).1
      simp only [if_neg hk]
      rw [hframe]

/-- Witness for C6 on a rotator holding one session `"s"`. -/
theorem rotate_present_updates_witness :
    rotP.sessions "s" = some sessP ∧
    sessP.last_rotation ≤ 7 ∧ sessP.rotation_count + 1 < 2 ^ 32 ∧
    ∃ p rot2,
      rotate_session_parameters rotP "s" zeroStream 0 7 0 =
        some (some p, rot2) ∧
      ∃ s2, rot2.sessions "s" = some s2 ∧
        s2.parameters = p ∧
        s2.last_rotation = 7 ∧ sessP.last_rotation ≤ s2.last_rotation ∧
        s2.rotation_count = sessP.rotation_count + 1 ∧
        s2.pattern_profile =
          (get_current_hourly_pattern rotP zeroStream 5 0).1.pattern_id ∧
        s2.session_id = sessP.session_id ∧ s2.created_at = sessP.created_at ∧
        (∀ k, k ≠ "s" → rot2.sessions k = rotP.sessions k) :=
  ⟨rfl, by decide, by decide,
    rotate_present_updates rotP "s" zeroStream 0 7 0 sessP rfl (by decide)
      (by decide) (by decide) (by decide) (by decide)⟩

theorem generate_tcp_window_bounds {cfg : PatternRotationConfig}
    {σ : Nat → Nat} {ix w : Nat}
    (h : generate_tcp_window cfg σ ix = some w) :
    (cfg.randomize_tcp_window = true →
      cfg.min_tcp_window ≤ w ∧ w ≤ cfg.max_tcp_window) ∧
    (cfg.randomize_tcp_window = false → w = 65535) := by
  unfold generate_tcp_window at h
  split at h
  next hb =>
    exact ⟨fun _ => genRange_mem h, fun hf => by simp [hb] at hf⟩
  next hb =>
    simp only [Option.some.injEq] at h
    subst h
    exact ⟨fun ht => by simp [ht] at hb, fun _ => rfl⟩

theorem generate_ttl_bounds {cfg : PatternRotationConfig}
    {σ : Nat → Nat} {ix t : Nat}
    (h : generate_ttl cfg σ ix = some t) :
    (cfg.randomize_ttl = true → cfg.min_ttl ≤ t ∧ t ≤ cfg.max_ttl) ∧
    (cfg.randomize_ttl = false → t = 64) := by
  unfold generate_ttl at h
  split at h
  next hb =>
    exact ⟨fun _ => genRange_mem h, fun hf => by simp [hb] at hf⟩
  next hb =>
    simp only [Option.some.injEq] at h
    subst h
    exact ⟨fun ht => by simp [ht] at hb, fun _ => rfl⟩

theorem generate_packet_timing_variance_bounds {cfg : PatternRotationConfig}
    {σ : Nat → Nat} {ix v : Nat}
    (h : generate_packet_timing_variance cfg σ ix = some v) :
    (cfg.randomize_packet_timing = true → v ≤ 50) ∧
    (cfg.randomize_packet_timing = false → v = 0) := by
  unfold generate_packet_timing_variance at h
  split at h
  next hb =>
    exact ⟨fun _ => (genRange_mem h).2, fun hf => by simp [hb] at hf⟩
  next hb =>
    simp only [Option.some.injEq] at h
    subst h
    exact ⟨fun ht => by simp [ht] at hb, fun _ => rfl⟩

theorem generate_tcp_mss_mem (σ : Nat → Nat) (ix : Nat) :
    generate_tcp_mss σ ix ∈ mss_options := by
  unfold generate_tcp_mss
  have hlt : σ ix % mss_options.length < mss_options.length :=
    Nat.mod_lt _ (by decide)
  rw [List.getD_eq_getElem _ _ hlt]
  exact List.getElem_mem hlt

/-- C7: every generated `SessionParameters` respects its declared ranges:
window in `[min, max]` (65535 when not randomized), TTL in `[min, max]` (64
when not randomized), MSS drawn from the fixed set, RTT in `[min, max]`,
timing variance in `[0, 50]` (0 when not randomized); and both
`get_session_parameters` (on a fresh identifier) and
`rotate_session_parameters` (on a known one) return exactly the parameters
built by `make_session_parameters`. -/
theorem session_parameters_in_range (cfg : PatternRotationConfig)
    (σ : Nat → Nat) (ix : Nat) (p : SessionParameters)
    (rot : PatternRotator) (sid : String) (s : SessionState)
    (now nowSecs : Nat)
    (hw : cfg.min_tcp_window ≤ cfg.max_tcp_window)
    (ht : cfg.min_ttl ≤ cfg.max_ttl)
    (hr : cfg.min_rtt_ms ≤ cfg.max_rtt_ms)
    (hmk : make_session_parameters cfg σ ix = some p) :
    ((cfg.randomize_tcp_window = true →
        cfg.min_tcp_window ≤ p.tcp_window_size ∧
          p.tcp_window_size ≤ cfg.max_tcp_window) ∧
      (cfg.randomize_tcp_window = false → p.tcp_window_size = 65535) ∧
      (cfg.randomize_ttl = true → cfg.min_ttl ≤ p.ttl ∧ p.ttl ≤ cfg.max_ttl) ∧
      (cfg.randomize_ttl = false → p.ttl = 64) ∧
      p.tcp_mss ∈ mss_options ∧
      cfg.min_rtt_ms ≤ p.initial_rtt_ms ∧
      p.initial_rtt_ms ≤ cfg.max_rtt_ms ∧
      (cfg.randomize_packet_timing = true → p.packet_timing_variance ≤ 50) ∧
      (cfg.randomize_packet_timing = false → p.packet_timing_variance = 0)) ∧
    (rot.sessions sid = none → rot.config = cfg →
      Option.map Prod.fst (get_session_parameters rot sid σ ix now nowSecs) =
        make_session_parameters cfg σ ix) ∧
    (rot.sessions sid = some s → rot.config = cfg →
      Option.map Prod.fst
          (rotate_session_parameters rot sid σ ix now nowSecs) =
        Option.map some (make_session_parameters cfg σ ix)) := by
  refine ⟨?_, ?_, ?_⟩
  · unfold make_session_parameters at hmk
    cases hww : generate_tcp_window cfg σ ix with
    | none => rw [hww] at hmk; simp at hmk
    | some w =>
      cases htt : generate_ttl cfg σ (ix + 2) with
      | none => rw [hww, htt] at hmk; simp at hmk
      | some t =>
        cases hrr : generate_initial_rtt cfg σ (ix + 3) with
        | none => rw [hww, htt, hrr] at hmk; simp at hmk
        | some r' =>
          cases hvv : generate_packet_timing_variance cfg σ (ix + 4) with
          | none => rw [hww, htt, hrr, hvv] at hmk; simp at hmk
          | some v =>
            rw [hww, htt, hrr, hvv] at hmk
            simp only [Option.some.injEq] at hmk
            subst hmk
            have hwb := generate_tcp_window_bounds hww
            have htb := generate_ttl_bounds htt
            have hvb := generate_packet_timing_variance_bounds hvv
            have hrb := genRange_mem hrr
            exact ⟨hwb.1, hwb.2, htb.1, htb.2,
              generate_tcp_mss_mem σ (ix + 1), hrb.1, hrb.2, hvb.1, hvb.2⟩
  · intro habsent hcfg
    unfold get_session_parameters
    rw [habsent, hcfg, hmk]
    rfl
  · intro hpresent hcfg
    unfold rotate_session_parameters
    rw [hpresent, hcfg, hmk]
    rfl

/-- Witness for C7 with the default configuration, the all-zeros stream, and a
fresh rotator. -/
theorem session_parameters_in_range_witness :
    PatternRotationConfig.default.min_tcp_window ≤
      PatternRotationConfig.default.max_tcp_window ∧
    make_session_parameters PatternRotationConfig.default zeroStream 0 =
      some paramsW ∧
    ((PatternRotationConfig.default.randomize_tcp_window = true →
        PatternRotationConfig.default.min_tcp_window ≤
            paramsW.tcp_window_size ∧
          paramsW.tcp_window_size ≤
            PatternRotationConfig.default.max_tcp_window) ∧
      (PatternRotationConfig.default.randomize_tcp_window = false →
        paramsW.tcp_window_size = 65535) ∧
      (PatternRotationConfig.default.randomize_ttl = true →
        PatternRotationConfig.default.min_ttl ≤ paramsW.ttl ∧
          paramsW.ttl ≤ PatternRotationConfig.default.max_ttl) ∧
      (PatternRotationConfig.default.randomize_ttl = false →
        paramsW.ttl = 64) ∧
      paramsW.tcp_mss ∈ mss_options ∧
      PatternRotationConfig.default.min_rtt_ms ≤ paramsW.initial_rtt_ms ∧
      paramsW.initial_rtt_ms ≤ PatternRotationConfig.default.max_rtt_ms ∧
      (PatternRotationConfig.default.randomize_packet_timing = true →
        paramsW.packet_timing_variance ≤ 50) ∧
      (PatternRotationConfig.default.randomize_packet_timing = false →
        paramsW.packet_timing_variance = 0)) ∧
    (rotEmpty.sessions "s" = none →
      rotEmpty.config = PatternRotationConfig.default →
      Option.map Prod.fst
          (get_session_parameters rotEmpty "s" zeroStream 0 0 0) =
        make_session_parameters PatternRotationConfig.default zeroStream 0) :=
  ⟨by decide, by rfl,
    ((session_parameters_in_range PatternRotationConfig.default zeroStream 0
        paramsW rotEmpty "s" sessP 0 0 (by decide) (by decide) (by decide)
        (by rfl)).1),
    fun h1 h2 =>
      ((session_parameters_in_range PatternRotationConfig.default zeroStream 0
        paramsW rotEmpty "s" sessP 0 0 (by decide) (by decide) (by decide)
        (by rfl)).2.1 h1 h2)⟩

/-! ### Hourly pattern cache -/

/-- C8: (a) two successive `get_current_hourly_pattern` calls whose computed
hour indices agree return identical patterns and leave the cache as the first
call left it; (b) a call whose hour index differs from the cached one replaces
the cache exactly once with the freshly generated pattern, whose identifier
differs from the cached one. -/
theorem hourly_pattern_cache (rot : PatternRotator) (σ1 σ2 : Nat → Nat)
    (ix1 ix2 s1 s2 : Nat)
    (hsame : (s1 / 3600) % 2 ^ 32 = (s2 / 3600) % 2 ^ 32)
    (hwf : rot.last_hourly_pattern.pattern_id =
      patternIdString rot.last_hourly_pattern.hour) :
    ((get_current_hourly_pattern
        (get_current_hourly_pattern rot σ1 ix1 s1).2 σ2 ix2 s2).1 =
      (get_current_hourly_pattern rot σ1 ix1 s1).1 ∧
     (get_current_hourly_pattern
        (get_current_hourly_pattern rot σ1 ix1 s1).2 σ2 ix2 s2).2 =
      (get_current_hourly_pattern rot σ1 ix1 s1).2) ∧
    ((s1 / 3600) % 2 ^ 32 ≠ rot.last_hourly_pattern.hour →
      (get_current_hourly_pattern rot σ1 ix1 s1).1 =
        generate_hourly_pattern σ1 ix1 s1 ∧
      (get_current_hourly_pattern rot σ1 ix1 s1).2.last_hourly_pattern =
        generate_hourly_pattern σ1 ix1 s1 ∧
      (get_current_hourly_pattern rot σ1 ix1 s1).1.pattern_id ≠
        rot.last_hourly_pattern.pattern_id) := by
  have hhour1 : (generate_hourly_pattern σ1 ix1 s1).hour =
      (s1 / 3600) % 2 ^ 32 := rfl
  have hhour2 : (generate_hourly_pattern σ2 ix2 s2).hour =
      (s2 / 3600) % 2 ^ 32 := rfl
  by_cases hc : (s1 / 3600) % 2 ^ 32 = rot.last_hourly_pattern.hour
  · -- same hour as the cache: both calls return the cached pattern
    have h1 : get_current_hourly_pattern rot σ1 ix1 s1 =
        (rot.last_hourly_pattern, rot) := by
      unfold get_current_hourly_pattern
      rw [if_neg (not_not_intro (hhour1.trans hc))]
    refine ⟨?_, fun hne => absurd hc hne⟩
    rw [h1]
    have h2 : get_current_hourly_pattern rot σ2 ix2 s2 =
        (rot.last_hourly_pattern, rot) := by
      unfold get_current_hourly_pattern
      rw [if_neg (not_not_intro (hhour2.trans (hsame.symm.trans hc)))]
    exact ⟨congrArg Prod.fst h2, congrArg Prod.snd h2⟩
  · -- hour change: the first call replaces the cache
    have h1 : get_current_hourly_pattern rot σ1 ix1 s1 =
        (generate_hourly_pattern σ1 ix1 s1,
          { rot with
              last_hourly_pattern := generate_hourly_pattern σ1 ix1 s1 }) := by
      unfold get_current_hourly_pattern
      rw [if_pos (show (generate_hourly_pattern σ1 ix1 s1).hour ≠
          rot.last_hourly_pattern.hour from by rw [hhour1]; exact hc)]
    refine ⟨?_, fun _ => ⟨congrArg Prod.fst h1, ?_, ?_⟩⟩
    · rw [h1]
      have h2 : get_current_hourly_pattern
          { rot with
              last_hourly_pattern := generate_hourly_pattern σ1 ix1 s1 }
          σ2 ix2 s2 =
          (generate_hourly_pattern σ1 ix1 s1,
            { rot with
                last_hourly_pattern := generate_hourly_pattern σ1 ix1 s1 }) := by
        unfold get_current_hourly_pattern
        rw [if_neg (not_not_intro
          (hhour2.trans (hsame.symm.trans hhour1.symm)))]
      exact ⟨congrArg Prod.fst h2, congrArg Prod.snd h2⟩
    · rw [h1]
    · rw [h1, hwf]
      intro hid
      exact hc (patternIdString_injective hid)

/-- Witness for C8: cache at hour 1, two calls at epoch seconds 0 and 3599
(both hour index 0). -/
theorem hourly_pattern_cache_witness :
    (0 / 3600) % 2 ^ 32 = (3599 / 3600) % 2 ^ 32 ∧
    rotHour1.last_hourly_pattern.pattern_id =
      patternIdString rotHour1.last_hourly_pattern.hour ∧
    (((get_current_hourly_pattern
        (get_current_hourly_pattern rotHour1 zeroStream 0 0).2 zeroStream 0
          3599).1 =
      (get_current_hourly_pattern rotHour1 zeroStream 0 0).1 ∧
     (get_current_hourly_pattern
        (get_current_hourly_pattern rotHour1 zeroStream 0 0).2 zeroStream 0
          3599).2 =
      (get_current_hourly_pattern rotHour1 zeroStream 0 0).2) ∧
    ((0 / 3600) % 2 ^ 32 ≠ rotHour1.last_hourly_pattern.hour →
      (get_current_hourly_pattern rotHour1 zeroStream 0 0).1 =
        generate_hourly_pattern zeroStream 0 0 ∧
      ((get_current_hourly_pattern rotHour1 zeroStream 0
          0).2).last_hourly_pattern = generate_hourly_pattern zeroStream 0 0 ∧
      (get_current_hourly_pattern rotHour1 zeroStream 0 0).1.pattern_id ≠
        rotHour1.last_hourly_pattern.pattern_id)) :=
  ⟨by decide, rfl,
    hourly_pattern_cache rotHour1 zeroStream zeroStream 0 0 0 3599
      (by decide) rfl⟩

end Security
